import Mathlib

/-!
Verification of the StockAdvisor strategy-backtesting engine.

Shallow embedding of `src/services/backtester.py`, `src/services/strategies.py`
and `src/utils/data_models.py`.  Python floats are modelled by `ℚ` (the claims
under consideration are algebraic, not rounding claims); the irrational parts
of the metric pipeline (`sqrt`, fractional powers) live in `ℝ`.  Dates are
modelled as integer day numbers; `now` is an explicit parameter standing for
`datetime.now()` observed when a `Trade` object is constructed.
-/

namespace StockAdvisor

/-- `PositionType` enum from `src/utils/data_models.py`. -/
inductive PositionType where
  | long
  | short
deriving DecidableEq, Repr

/-- One row of the price series: date (as integer day) and close price.
The simulator only reads `data.index[i]` and `data['Close'].iloc[i]`. -/
structure Bar where
  date : ℤ
  close : ℚ
deriving DecidableEq, Repr

/-- `Trade` dataclass from `src/utils/data_models.py`.  The "calculated"
fields are stored (the Python dataclass stores them as instance attributes
computed in `__post_init__`); mutating `exit_price` later does NOT recompute
them, which the embedding reflects by record updates that leave them alone. -/
structure Trade where
  entry_date : ℤ
  exit_date : Option ℤ
  symbol : String
  position_type : PositionType
  entry_price : ℚ
  exit_price : Option ℚ
  shares : ℚ
  entry_cost : ℚ
  exit_cost : ℚ
  profit_loss : ℚ
  profit_loss_pct : ℚ
  duration_days : ℤ
deriving DecidableEq, Repr

/-- `Trade.__post_init__`: builds a `Trade` from the `init` fields, computing
the derived fields.  `now` is the value of `datetime.now()` (in days) at
construction time, used for `duration_days` of a still-open trade. -/
def Trade.make (entry_date : ℤ) (exit_date : Option ℤ) (symbol : String)
    (position_type : PositionType) (entry_price : ℚ) (exit_price : Option ℚ)
    (shares : ℚ) (now : ℤ) : Trade :=
  let entry_cost := entry_price * shares
  match exit_price with
  | some xp =>
      let exit_cost := xp * shares
      let pl :=
        match position_type with
        | .long => exit_cost - entry_cost
        | .short => entry_cost - exit_cost
      { entry_date := entry_date, exit_date := exit_date, symbol := symbol
        position_type := position_type, entry_price := entry_price
        exit_price := some xp, shares := shares
        entry_cost := entry_cost, exit_cost := exit_cost
        profit_loss := pl
        profit_loss_pct := if 0 < entry_cost then pl / entry_cost * 100 else 0
        duration_days := (exit_date.getD 0) - entry_date }
  | none =>
      { entry_date := entry_date, exit_date := none, symbol := symbol
        position_type := position_type, entry_price := entry_price
        exit_price := none, shares := shares
        entry_cost := entry_cost, exit_cost := 0
        profit_loss := 0, profit_loss_pct := 0
        duration_days := now - entry_date }

/-- Loop state of `Backtester._simulate_trading`: cash, the open position,
the closed-trade list and the equity curve (accumulated in reverse). -/
structure SimState where
  cash : ℚ
  position : Option Trade
  trades : List Trade
  equityRev : List ℚ
deriving DecidableEq, Repr

/-- One iteration of the bar loop in `Backtester._simulate_trading`
(`src/services/backtester.py`).  `row` is the pair of the current bar and its
signal; the equity recorded at the end of the body is pushed on `equityRev`. -/
def simStep (commission sharesPerTrade : ℚ) (now : ℤ)
    (st : SimState) (row : Bar × ℤ) : SimState :=
  let price := row.1.close
  let signal := row.2
  match st.position with
  | some pos =>
      if signal = -1 then
        -- close existing position on sell signal
        let commission_cost := pos.entry_cost * commission
        let pl :=
          match pos.position_type with
          | .long => pos.profit_loss - commission_cost
          | .short => pos.profit_loss - commission_cost
        let pos' := { pos with exit_date := some row.1.date
                               exit_price := some price
                               profit_loss := pl }
        let cash' :=
          match pos.position_type with
          | .long => st.cash + price * pos.shares - commission_cost
          | .short => st.cash - (price * pos.shares + commission_cost)
        { cash := cash', position := none, trades := st.trades ++ [pos']
          equityRev := cash' :: st.equityRev }
      else
        -- keep holding: equity is cash plus the market value of the position
        let equity :=
          match pos.position_type with
          | .long => st.cash + price * pos.shares
          | .short => st.cash + pos.entry_cost - price * pos.shares
        { st with equityRev := equity :: st.equityRev }
  | none =>
      if signal = 1 then
        let commission_cost := price * sharesPerTrade * commission
        if price * sharesPerTrade + commission_cost ≤ st.cash then
          let pos := Trade.make row.1.date none "UNKNOWN" .long price none
              sharesPerTrade now
          let cash' := st.cash - (price * sharesPerTrade + commission_cost)
          { cash := cash', position := some pos, trades := st.trades
            equityRev := (cash' + price * sharesPerTrade) :: st.equityRev }
        else
          -- insufficient cash: buy signal is silently ignored
          { st with equityRev := st.cash :: st.equityRev }
      else
        { st with equityRev := st.cash :: st.equityRev }

/-- `Backtester._simulate_trading`: runs the bar loop from the second bar,
then force-closes any remaining position at the last bar (only `exit_date`
and `exit_price` are assigned there, exactly as in the source).  Returns the
trade list and the equity curve. -/
def simulate (commission initial_capital sharesPerTrade : ℚ) (now : ℤ)
    (bars : List Bar) (signals : List ℤ) : List Trade × List ℚ :=
  let st0 : SimState := ⟨initial_capital, none, [], [initial_capital]⟩
  let st := ((bars.zip signals).drop 1).foldl
      (simStep commission sharesPerTrade now) st0
  let trades :=
    match st.position with
    | some pos =>
        let lastBar := bars.getLastD ⟨0, 0⟩
        st.trades ++ [{ pos with exit_date := some lastBar.date
                                 exit_price := some lastBar.close }]
    | none => st.trades
  (trades, st.equityRev.reverse)

/-- Validation performed by `Backtester.backtest` before simulating: it
raises iff the fetched frame is empty or has no `Close` column.  `hasClose`
abstracts the presence of the close-price column in the fetched data. -/
def backtestValidation (bars : List Bar) (hasClose : Bool) : Except String Unit :=
  if bars.isEmpty then .error "No data available"
  else if hasClose = false then .error "Data must contain Close column"
  else .ok ()

/-- `equity_curve[-1] if equity_curve else initial_capital`. -/
def finalValue (equity : List ℚ) (initial_capital : ℚ) : ℚ :=
  equity.getLastD initial_capital

/-- `np.mean` of a list of rationals (population mean, `sum / len`). -/
def meanQ (xs : List ℚ) : ℚ := xs.sum / (xs.length : ℚ)

/-- Population variance, the square of `np.std` (ddof = 0). -/
def varQ (xs : List ℚ) : ℚ := meanQ (xs.map (fun x => (x - meanQ xs) ^ 2))

/-- `np.std` (population standard deviation). -/
noncomputable def stdR (xs : List ℚ) : ℝ := Real.sqrt ((varQ xs : ℚ) : ℝ)

/-- `years = max(days / 365.25, 0.01)` from `_calculate_returns`. -/
def yearsOf (days : ℤ) : ℚ := max ((days : ℚ) / (1461 / 4)) (1 / 100)

/-- `total_return_pct` from `BacktestResults._calculate_returns`. -/
def total_return_pct (equity : List ℚ) (initial_capital : ℚ) : ℚ :=
  if 0 < initial_capital then
    (finalValue equity initial_capital - initial_capital) / initial_capital * 100
  else 0

/-- `annual_return_pct` from `BacktestResults._calculate_returns`.  Returns
`none` exactly when the Python expression `final_value / initial_capital`
raises `ZeroDivisionError`, i.e. when the initial capital is zero (this
division is not guarded, unlike the one in `total_return_pct`). -/
noncomputable def annual_return_pct (equity : List ℚ) (initial_capital : ℚ)
    (days : ℤ) : Option ℝ :=
  if initial_capital = 0 then none
  else
    some ((((finalValue equity initial_capital / initial_capital : ℚ) : ℝ) ^
      ((1 : ℝ) / ((yearsOf days : ℚ) : ℝ)) - 1) * 100)

/-- `[t for t in trades if t.exit_price is not None]`. -/
def closedTrades (ts : List Trade) : List Trade :=
  ts.filter (fun t => t.exit_price.isSome)

/-- Profit amounts of the winning closed trades. -/
def winAmounts (ts : List Trade) : List ℚ :=
  ((closedTrades ts).filter (fun t => 0 < t.profit_loss)).map Trade.profit_loss

/-- Absolute loss amounts of the losing closed trades. -/
def lossAmounts (ts : List Trade) : List ℚ :=
  ((closedTrades ts).filter (fun t => t.profit_loss < 0)).map
    (fun t => |t.profit_loss|)

/-- `win_rate_pct` from `BacktestResults._calculate_win_metrics`. -/
def win_rate_pct (ts : List Trade) : ℚ :=
  if ts = [] then 0
  else if closedTrades ts = [] then 0
  else ((((closedTrades ts).filter (fun t => 0 < t.profit_loss)).length : ℚ) /
    ((closedTrades ts).length : ℚ)) * 100

/-- `avg_win` from `BacktestResults._calculate_win_metrics`. -/
def avg_win (ts : List Trade) : ℚ :=
  if ts = [] then 0
  else if closedTrades ts = [] then 0
  else if winAmounts ts = [] then 0
  else meanQ (winAmounts ts)

/-- `avg_loss` from `BacktestResults._calculate_win_metrics`. -/
def avg_loss (ts : List Trade) : ℚ :=
  if ts = [] then 0
  else if closedTrades ts = [] then 0
  else if lossAmounts ts = [] then 0
  else meanQ (lossAmounts ts)

/-- `profit_factor` from `BacktestResults._calculate_win_metrics`. -/
def profit_factor (ts : List Trade) : ℚ :=
  if ts = [] then 0
  else if closedTrades ts = [] then 0
  else if 0 < (lossAmounts ts).sum then (winAmounts ts).sum / (lossAmounts ts).sum
  else if 0 < (winAmounts ts).sum then 1
  else 0

/-- `np.maximum.accumulate`, carrying the running maximum. -/
def runMaxAux : ℚ → List ℚ → List ℚ
  | _, [] => []
  | m, e :: es => max m e :: runMaxAux (max m e) es

/-- Running maximum of the equity curve. -/
def runningMaxList (equity : List ℚ) : List ℚ :=
  match equity with
  | [] => []
  | e :: _ => runMaxAux e equity

/-- `(equity - running_max) / running_max`, elementwise. -/
def drawdownList (equity : List ℚ) : List ℚ :=
  List.zipWith (fun e m => (e - m) / m) equity (runningMaxList equity)

/-- `np.min` of a nonempty list (`0` on the empty list, unreached). -/
def listMin : List ℚ → ℚ
  | [] => 0
  | d :: ds => ds.foldl min d

/-- `np.argmin`: the first index attaining the minimum. -/
def argminAux : ℕ → ℕ → ℚ → List ℚ → ℕ
  | _, bi, _, [] => bi
  | i, bi, bv, x :: xs =>
      if x < bv then argminAux (i + 1) i x xs else argminAux (i + 1) bi bv xs

/-- `np.argmin` over a list (`0` on the empty list). -/
def argminIdx : List ℚ → ℕ
  | [] => 0
  | x :: xs => argminAux 1 0 x xs

/-- `max_drawdown_pct` from `BacktestResults._calculate_risk_metrics`. -/
def max_drawdown_pct (equity : List ℚ) : ℚ :=
  if equity = [] then 0 else listMin (drawdownList equity) * 100

/-- `recovery_time` from `BacktestResults._calculate_risk_metrics`: bars from
the drawdown trough until equity first re-reaches the prior running maximum. -/
def recovery_time (equity : List ℚ) : ℕ :=
  if equity = [] then 0
  else
    match (List.range' (argminIdx (drawdownList equity) + 1)
        (equity.length - (argminIdx (drawdownList equity) + 1))).find?
        (fun i => (runningMaxList equity).getD (argminIdx (drawdownList equity)) 0
          ≤ equity.getD i 0) with
    | some i => i - argminIdx (drawdownList equity)
    | none => 0

/-- `np.diff(equity) / equity[:-1]`: bar-over-bar returns. -/
def returnsList (equity : List ℚ) : List ℚ :=
  List.zipWith (fun prev next => (next - prev) / prev) equity equity.tail

/-- `sharpe_ratio` from `BacktestResults._calculate_ratios`. -/
noncomputable def sharpe_ratio (equity : List ℚ) : ℝ :=
  if equity.length < 2 then 0
  else if 1 < (returnsList equity).length then
    if 0 < stdR (returnsList equity) then
      ((meanQ (returnsList equity) : ℚ) : ℝ) / stdR (returnsList equity) *
        Real.sqrt 252
    else 0
  else 0

/-- `sortino_ratio` from `BacktestResults._calculate_ratios`: the denominator
is `np.std(np.minimum(returns, 0))` — the population standard deviation of
ALL the returns with the positive ones clipped to zero. -/
noncomputable def sortino_ratio (equity : List ℚ) : ℝ :=
  if equity.length < 2 then 0
  else if 1 < ((returnsList equity).map (fun x => min x 0)).length then
    if 0 < stdR ((returnsList equity).map (fun x => min x 0)) then
      ((meanQ (returnsList equity) : ℚ) : ℝ) /
        stdR ((returnsList equity).map (fun x => min x 0)) * Real.sqrt 252
    else 0
  else 0

/-- `calmar_ratio` from `BacktestResults._calculate_ratios` (data_models
version), including the early `len(equity_curve) < 2` return. -/
noncomputable def calmar_ratio (equity : List ℚ) (annual : ℝ) (maxdd : ℚ) : ℝ :=
  if equity.length < 2 then 0
  else if maxdd < 0 then
    if 0 < |maxdd| then annual / ((|maxdd| : ℚ) : ℝ) else 0
  else 0

/-- The metrics block of `BacktestResults`. -/
structure BacktestResultsM where
  total_return_pct : ℚ
  annual_return_pct : ℝ
  win_rate_pct : ℚ
  avg_win : ℚ
  avg_loss : ℚ
  profit_factor : ℚ
  max_drawdown_pct : ℚ
  recovery_time : ℕ
  sharpe_ratio : ℝ
  sortino_ratio : ℝ
  calmar_ratio : ℝ

/-- `BacktestResults.__post_init__`: computes every metric eagerly.  Returns
`none` exactly when `_calculate_returns` raises (zero initial capital). -/
noncomputable def mkBacktestResults (initial_capital : ℚ) (days : ℤ)
    (trades : List Trade) (equity_curve : List ℚ) : Option BacktestResultsM :=
  match annual_return_pct equity_curve initial_capital days with
  | none => none
  | some ar =>
      some
        { total_return_pct := total_return_pct equity_curve initial_capital
          annual_return_pct := ar
          win_rate_pct := win_rate_pct trades
          avg_win := avg_win trades
          avg_loss := avg_loss trades
          profit_factor := profit_factor trades
          max_drawdown_pct := max_drawdown_pct equity_curve
          recovery_time := recovery_time equity_curve
          sharpe_ratio := sharpe_ratio equity_curve
          sortino_ratio := sortino_ratio equity_curve
          calmar_ratio := calmar_ratio equity_curve ar
            (max_drawdown_pct equity_curve) }

/-- Each loop iteration pushes exactly one equity value. -/
lemma simStep_equityRev (c sh : ℚ) (now : ℤ) (st : SimState) (row : Bar × ℤ) :
    ∃ q, (simStep c sh now st row).equityRev = q :: st.equityRev := by
  unfold simStep
  cases st.position <;> dsimp only <;> split <;>
    first
      | exact ⟨_, rfl⟩
      | (split <;> exact ⟨_, rfl⟩)

/-- The bar loop extends the equity accumulator by one value per row. -/
lemma foldl_equityRev (c sh : ℚ) (now : ℤ) :
    ∀ (rows : List (Bar × ℤ)) (st : SimState),
    ∃ l : List ℚ, (rows.foldl (simStep c sh now) st).equityRev = l ++ st.equityRev
      ∧ l.length = rows.length := by
  intro rows
  induction rows with
  | nil => exact fun st => ⟨[], rfl, rfl⟩
  | cons r rs ih =>
    intro st
    obtain ⟨q, hq⟩ := simStep_equityRev c sh now st r
    obtain ⟨l, hl, hlen⟩ := ih (simStep c sh now st r)
    refine ⟨l ++ [q], ?_, ?_⟩
    · rw [List.foldl_cons, hl, hq]
      simp
    · simp [hlen]

/-- C2: for every nonempty price series and aligned signal sequence, the
equity curve produced by `Backtester._simulate_trading` has length equal to
the number of bars and its first element is the initial capital. -/
theorem equity_curve_first_and_length (c init sh : ℚ) (now : ℤ)
    (bars : List Bar) (signals : List ℤ)
    (hne : bars ≠ []) (hlen : signals.length = bars.length) :
    (simulate c init sh now bars signals).2.length = bars.length ∧
    (simulate c init sh now bars signals).2.head? = some init := by
  obtain ⟨l, hl, hlen'⟩ :=
    foldl_equityRev c sh now ((bars.zip signals).drop 1) ⟨init, none, [], [init]⟩
  have hsim : (simulate c init sh now bars signals).2 =
      (l ++ [init]).reverse := by
    unfold simulate
    dsimp only
    rw [hl]
  have hpos : 0 < bars.length := List.length_pos.mpr hne
  constructor
  · rw [hsim, List.length_reverse, List.length_append, hlen',
      List.length_drop, List.length_zip, hlen]
    simp
    omega
  · rw [hsim, List.reverse_append]
    simp

theorem equity_curve_first_and_length_witness :
    (simulate 0 500 1 0 [⟨0, 10⟩] [0]).2.length = [(⟨0, 10⟩ : Bar)].length ∧
    (simulate 0 500 1 0 [⟨0, 10⟩] [0]).2.head? = some 500 :=
  equity_curve_first_and_length 0 500 1 0 [⟨0, 10⟩] [0]
    (List.cons_ne_nil _ _) rfl

/-- C1: evaluation of `_simulate_trading` on a concrete run (3 bars with
closes 100, 100, 110; Buy on bar 1, Sell on bar 2; one share; commission
rate 1/100; capital 1000).  The code books the recorded trade's
`profit_loss` as `0 - entry_cost * commission = -1`, ignoring the price
move, and credits cash with `exit_price * shares` minus a commission charged
on the ENTRY notional, so the final equity is 1008.  The claim's accounting
(commission on both entry and exit notionals, `profit_loss` equal to the
notional difference net of both commissions) would give a profit of 7.9 and
a final equity of 1007.9. -/
theorem commission_and_pl_code_eval :
    ((simulate (1/100) 1000 1 0 [⟨0, 100⟩, ⟨1, 100⟩, ⟨2, 110⟩]
      [0, 1, -1]).1.map Trade.profit_loss = [-1]) ∧
    ((simulate (1/100) 1000 1 0 [⟨0, 100⟩, ⟨1, 100⟩, ⟨2, 110⟩]
      [0, 1, -1]).2 = [1000, 999, 1008]) ∧
    (-1 : ℚ) ≠ (110 * 1 - 100 * 1) - (1/100 * 100 * 1 + 1/100 * 110 * 1) ∧
    (1008 : ℚ) ≠ 1000 - (100 + 1/100 * 100) + (110 - 1/100 * 110) := by
  refine ⟨?_, ?_, by norm_num, by norm_num⟩ <;>
    norm_num [simulate, simStep, Trade.make, List.foldl]

/-- C3: evaluation of the end-of-series force-close on a concrete run
(Buy on bar 1 at close 100, no further signal, last close 110, run at
wall-clock day 999).  The force-closed trade does get `exit_price`/`exit_date`
of the last bar, but its stored derived fields are never recomputed: they
keep the values assigned at construction time (`exit_cost = 0`,
`profit_loss = 0`, `profit_loss_pct = 0`,
`duration_days = now - entry_date = 998`), instead of the values derived from
entry and exit prices at the moment of closing (110, 10, 10, 1). -/
theorem forced_close_stale_fields :
    ((simulate (1/100) 1000 1 999 [⟨0, 100⟩, ⟨1, 100⟩, ⟨2, 110⟩]
      [0, 1, 0]).1.map Trade.exit_price = [some 110]) ∧
    ((simulate (1/100) 1000 1 999 [⟨0, 100⟩, ⟨1, 100⟩, ⟨2, 110⟩]
      [0, 1, 0]).1.map Trade.exit_date = [some 2]) ∧
    ((simulate (1/100) 1000 1 999 [⟨0, 100⟩, ⟨1, 100⟩, ⟨2, 110⟩]
      [0, 1, 0]).1.map Trade.profit_loss = [0]) ∧
    ((simulate (1/100) 1000 1 999 [⟨0, 100⟩, ⟨1, 100⟩, ⟨2, 110⟩]
      [0, 1, 0]).1.map Trade.exit_cost = [0]) ∧
    ((simulate (1/100) 1000 1 999 [⟨0, 100⟩, ⟨1, 100⟩, ⟨2, 110⟩]
      [0, 1, 0]).1.map Trade.duration_days = [998]) ∧
    (0 : ℚ) ≠ 110 * 1 - 100 * 1 := by
  refine ⟨?_, ?_, ?_, ?_, ?_, by norm_num⟩ <;>
    norm_num [simulate, simStep, Trade.make, List.foldl]

/-- C7 counterexample: the same price series, signals, capital and
commission, simulated at two different wall-clock times (`datetime.now()`
readings 0 and 1), produce different outputs: the open trade's
`duration_days` is computed from `datetime.now()` at construction and never
recomputed when the trade is closed. -/
theorem simulate_wall_clock_dependent :
    simulate (1/100) 1000 1 0 [⟨0, 100⟩, ⟨1, 100⟩, ⟨2, 110⟩] [0, 1, 0] ≠
    simulate (1/100) 1000 1 1 [⟨0, 100⟩, ⟨1, 100⟩, ⟨2, 110⟩] [0, 1, 0] := by
  have h1 : (simulate (1/100) 1000 1 0 [⟨0, 100⟩, ⟨1, 100⟩, ⟨2, 110⟩]
      [0, 1, 0]).1.map Trade.duration_days = [-1] := by
    norm_num [simulate, simStep, Trade.make, List.foldl]
  have h2 : (simulate (1/100) 1000 1 1 [⟨0, 100⟩, ⟨1, 100⟩, ⟨2, 110⟩]
      [0, 1, 0]).1.map Trade.duration_days = [0] := by
    norm_num [simulate, simStep, Trade.make, List.foldl]
  intro h
  rw [h, h2] at h1
  exact absurd h1 (by decide)

/-- A trade list with no exit prices has no closed trades. -/
lemma closedTrades_eq_nil_of_open (ts : List Trade)
    (h : ∀ t ∈ ts, t.exit_price = none) : closedTrades ts = [] := by
  rw [closedTrades, List.filter_eq_nil_iff]
  intro t ht
  simp [h t ht]

/-- C4 counterexample: constructing `BacktestResults` with zero initial
capital is one of the claim's listed degenerate inputs, yet the unguarded
division `final_value / self.initial_capital` in `_calculate_returns`
raises `ZeroDivisionError` there (modelled as `none`), so construction does
not always succeed with neutral metric values. -/
theorem zero_capital_construction_raises :
    annual_return_pct [50, 60] 0 5 = none ∧
    mkBacktestResults 0 5 [] [50, 60] = none := by
  constructor
  · simp [annual_return_pct]
  · simp [mkBacktestResults, annual_return_pct]

/-- C4 (amended): for every degenerate input to `BacktestResults`
construction EXCEPT zero initial capital — empty equity curve, empty or
all-open trade list, zero return variance, zero summed losses, zero or
sub-day date range — the affected metrics are assigned their defined
neutral values (0.0, or profit factor 1.0 when wins > 0) and construction
never raises; with zero initial capital it raises `ZeroDivisionError`. -/
theorem degenerate_metrics_neutral (init : ℚ) (days : ℤ) (ts : List Trade)
    (eq : List ℚ) (hinit : init ≠ 0) :
    (∃ r, mkBacktestResults init days ts eq = some r) ∧
    (total_return_pct [] init = 0 ∧ annual_return_pct [] init days = some 0 ∧
      max_drawdown_pct [] = 0 ∧ recovery_time [] = 0) ∧
    (eq.length < 2 → sharpe_ratio eq = 0 ∧ sortino_ratio eq = 0 ∧
      ∀ a m, calmar_ratio eq a m = 0) ∧
    (win_rate_pct [] = 0 ∧ avg_win [] = 0 ∧ avg_loss [] = 0 ∧
      profit_factor [] = 0) ∧
    ((∀ t ∈ ts, t.exit_price = none) → win_rate_pct ts = 0 ∧ avg_win ts = 0 ∧
      avg_loss ts = 0 ∧ profit_factor ts = 0) ∧
    (varQ (returnsList eq) = 0 → sharpe_ratio eq = 0) ∧
    (varQ ((returnsList eq).map (fun x => min x 0)) = 0 →
      sortino_ratio eq = 0) ∧
    (closedTrades ts ≠ [] → (lossAmounts ts).sum = 0 →
      profit_factor ts = if 0 < (winAmounts ts).sum then 1 else 0) ∧
    (days ≤ 0 → yearsOf days = 1 / 100) := by
  refine ⟨?_, ⟨?_, ?_, by simp [max_drawdown_pct], by simp [recovery_time]⟩,
    ?_, by simp [win_rate_pct, avg_win, avg_loss, profit_factor],
    ?_, ?_, ?_, ?_, ?_⟩
  · simp [mkBacktestResults, annual_return_pct, hinit]
  · simp [total_return_pct, finalValue]
  · unfold annual_return_pct
    rw [if_neg hinit]
    have h1 : finalValue [] init = init := rfl
    rw [h1, div_self hinit]
    norm_num [Real.one_rpow]
  · intro h
    refine ⟨by simp [sharpe_ratio, h], by simp [sortino_ratio, h], ?_⟩
    intro a m
    simp [calmar_ratio, h]
  · intro h
    have hc := closedTrades_eq_nil_of_open ts h
    by_cases hts : ts = [] <;>
      simp [win_rate_pct, avg_win, avg_loss, profit_factor, hts, hc]
  · intro hv
    have hstd : stdR (returnsList eq) = 0 := by simp [stdR, hv]
    simp [sharpe_ratio, hstd]
  · intro hv
    have hstd : stdR ((returnsList eq).map (fun x => min x 0)) = 0 := by
      simp [stdR, hv]
    simp [sortino_ratio, hstd]
  · intro hc hl
    have hts : ts ≠ [] := by
      intro h
      refine hc ?_
      rw [h]
      rfl
    rw [profit_factor, if_neg hts, if_neg hc, if_neg (by rw [hl]; exact lt_irrefl 0)]
  · intro hd
    rw [yearsOf]
    apply max_eq_right
    have h1 : (days : ℚ) ≤ 0 := by exact_mod_cast hd
    have h2 : (days : ℚ) / (1461 / 4) ≤ 0 :=
      div_nonpos_of_nonpos_of_nonneg h1 (by norm_num)
    linarith

theorem degenerate_metrics_neutral_witness :
    ((5 : ℚ) ≠ 0) ∧ annual_return_pct [] 5 (-3) = some 0 ∧
    yearsOf (-3) = 1 / 100 :=
  ⟨by norm_num,
    (degenerate_metrics_neutral 5 (-3) [] [] (by norm_num)).2.1.2.1,
    (degenerate_metrics_neutral 5 (-3) [] [] (by norm_num)).2.2.2.2.2.2.2.2
      (by norm_num)⟩

/-- C5 counterexample: a price series of a single bar (with a close column)
has fewer than 2 bars, yet `Backtester.backtest` accepts it — the only
validations in the source are `data.empty` and the presence of the `Close`
column — so the claimed "fewer than 2 bars" failure condition is wrong. -/
theorem single_bar_series_accepted :
    backtestValidation [⟨0, 100⟩] true = .ok () ∧
    [(⟨0, 100⟩ : Bar)].length < 2 := by
  exact ⟨rfl, by norm_num⟩

/-- C5 (amended): `Backtester.backtest` fails (with `ValueError`) if and
only if the price series is empty (zero bars) or lacks the close-price
column — a single-bar series is accepted; and a Buy signal on a bar where
cash is insufficient to cover entry cost plus commission is a no-op: the
state keeps its cash, open position and trades, and only records the
current cash as that bar's equity. -/
theorem backtest_failure_iff_and_insufficient_cash_noop :
    (∀ (bars : List Bar) (hasClose : Bool),
      (∃ e, backtestValidation bars hasClose = .error e) ↔
        (bars = [] ∨ hasClose = false)) ∧
    (∀ (c sh : ℚ) (now : ℤ) (st : SimState) (row : Bar × ℤ),
      st.position = none → row.2 = 1 →
      st.cash < row.1.close * sh + row.1.close * sh * c →
      simStep c sh now st row =
        { st with equityRev := st.cash :: st.equityRev }) := by
  constructor
  · intro bars hasClose
    cases bars with
    | nil =>
      constructor
      · intro _
        exact Or.inl rfl
      · intro _
        exact ⟨"No data available", rfl⟩
    | cons b bs =>
      cases hasClose
      · constructor
        · intro _
          exact Or.inr rfl
        · intro _
          exact ⟨"Data must contain Close column", rfl⟩
      · constructor
        · rintro ⟨e, he⟩
          exact absurd he (by simp [backtestValidation])
        · rintro (h | h) <;> simp at h
  · intro c sh now st row hpos hsig hcash
    unfold simStep
    rw [hpos, hsig]
    dsimp only
    rw [if_pos rfl, if_neg (by push_neg; exact hcash)]

theorem backtest_failure_iff_and_insufficient_cash_noop_witness :
    (∃ e, backtestValidation [] true = .error e) ∧
    simStep 0 1 0 ⟨5, none, [], [5]⟩ (⟨1, 10⟩, 1) =
      { cash := 5, position := none, trades := [], equityRev := [5, 5] } :=
  ⟨(backtest_failure_iff_and_insufficient_cash_noop.1 [] true).mpr
     (Or.inl rfl),
   backtest_failure_iff_and_insufficient_cash_noop.2 0 1 0
     ⟨5, none, [], [5]⟩ (⟨1, 10⟩, 1) rfl rfl (by norm_num)⟩

/-- Forget a trade's `duration_days` (the only field that depends on the
wall clock). -/
def Trade.clearDuration (t : Trade) : Trade := { t with duration_days := 0 }

/-- Forget the `duration_days` of the open position and of every recorded
trade in a simulator state. -/
def SimState.strip (st : SimState) : SimState :=
  { st with position := st.position.map Trade.clearDuration
            trades := st.trades.map Trade.clearDuration }

/-- One simulator step is insensitive to the wall clock up to the
`duration_days` fields. -/
lemma simStep_strip_congr (c sh : ℚ) (n₁ n₂ : ℤ) (st₁ st₂ : SimState)
    (row : Bar × ℤ) (h : st₁.strip = st₂.strip) :
    (simStep c sh n₁ st₁ row).strip = (simStep c sh n₂ st₂ row).strip := by
  obtain ⟨cash₁, pos₁, tr₁, eq₁⟩ := st₁
  obtain ⟨cash₂, pos₂, tr₂, eq₂⟩ := st₂
  simp only [SimState.strip, SimState.mk.injEq] at h
  obtain ⟨hcash, hpos, htr, heq⟩ := h
  subst hcash
  subst heq
  cases pos₁ with
  | none =>
    cases pos₂ with
    | some p₂ => simp at hpos
    | none =>
      simp only [simStep]
      split_ifs <;>
        simp [SimState.strip, SimState.mk.injEq, htr, Trade.make,
          Trade.clearDuration]
  | some p₁ =>
    cases pos₂ with
    | none => simp at hpos
    | some p₂ =>
      simp only [Option.map_some', Option.some.injEq] at hpos
      obtain ⟨e₁, x₁, s₁, pt₁, ep₁, xp₁, sh₁, ec₁, xc₁, pl₁, pp₁, dd₁⟩ := p₁
      obtain ⟨e₂, x₂, s₂, pt₂, ep₂, xp₂, sh₂, ec₂, xc₂, pl₂, pp₂, dd₂⟩ := p₂
      simp only [Trade.clearDuration, Trade.mk.injEq] at hpos
      obtain ⟨he, hx, hs, hpt, hep, hxp, hsh, hec, hxc, hpl, hpp, -⟩ := hpos
      subst he
      subst hx
      subst hs
      subst hpt
      subst hep
      subst hxp
      subst hsh
      subst hec
      subst hxc
      subst hpl
      subst hpp
      simp only [simStep]
      split_ifs <;> cases pt₁ <;>
        simp [SimState.strip, SimState.mk.injEq, htr, Trade.clearDuration]

/-- The whole bar loop is insensitive to the wall clock up to
`duration_days`. -/
lemma foldl_strip_congr (c sh : ℚ) (n₁ n₂ : ℤ) :
    ∀ (rows : List (Bar × ℤ)) (st₁ st₂ : SimState),
    st₁.strip = st₂.strip →
    (rows.foldl (simStep c sh n₁) st₁).strip =
      (rows.foldl (simStep c sh n₂) st₂).strip := by
  intro rows
  induction rows with
  | nil => exact fun st₁ st₂ h => h
  | cons r rs ih =>
    intro st₁ st₂ h
    exact ih _ _ (simStep_strip_congr c sh n₁ n₂ st₁ st₂ r h)

/-- `simulate` at two wall-clock readings: equal equity curves, and trade
lists equal after forgetting `duration_days`. -/
lemma simulate_strip (c init sh : ℚ) (n₁ n₂ : ℤ) (bars : List Bar)
    (signals : List ℤ) :
    (simulate c init sh n₁ bars signals).2 =
      (simulate c init sh n₂ bars signals).2 ∧
    (simulate c init sh n₁ bars signals).1.map Trade.clearDuration =
      (simulate c init sh n₂ bars signals).1.map Trade.clearDuration := by
  have h := foldl_strip_congr c sh n₁ n₂ ((bars.zip signals).drop 1)
    ⟨init, none, [], [init]⟩ ⟨init, none, [], [init]⟩ rfl
  unfold simulate
  dsimp only
  revert h
  generalize ((bars.zip signals).drop 1).foldl (simStep c sh n₁)
    ⟨init, none, [], [init]⟩ = A
  generalize ((bars.zip signals).drop 1).foldl (simStep c sh n₂)
    ⟨init, none, [], [init]⟩ = B
  intro h
  obtain ⟨cash₁, pos₁, tr₁, eq₁⟩ := A
  obtain ⟨cash₂, pos₂, tr₂, eq₂⟩ := B
  simp only [SimState.strip, SimState.mk.injEq] at h
  obtain ⟨hcash, hpos, htr, heq⟩ := h
  subst heq
  refine ⟨rfl, ?_⟩
  cases pos₁ with
  | none =>
    cases pos₂ with
    | some p₂ => simp at hpos
    | none => simpa using htr
  | some p₁ =>
    cases pos₂ with
    | none => simp at hpos
    | some p₂ =>
      simp only [Option.map_some', Option.some.injEq] at hpos
      obtain ⟨e₁, x₁, s₁, pt₁, ep₁, xp₁, sh₁, ec₁, xc₁, pl₁, pp₁, dd₁⟩ := p₁
      obtain ⟨e₂, x₂, s₂, pt₂, ep₂, xp₂, sh₂, ec₂, xc₂, pl₂, pp₂, dd₂⟩ := p₂
      simp only [Trade.clearDuration, Trade.mk.injEq] at hpos
      obtain ⟨he, hx, hs, hpt, hep, hxp, hsh, hec, hxc, hpl, hpp, -⟩ := hpos
      subst he
      subst hx
      subst hs
      subst hpt
      subst hep
      subst hxp
      subst hsh
      subst hec
      subst hxc
      subst hpl
      subst hpp
      simp [Trade.clearDuration, htr]

/-- Filtering by a duration-blind predicate and projecting a duration-blind
value gives the same list on trade lists that agree up to `duration_days`. -/
lemma filtered_map_congr (p : Trade → Bool) (g : Trade → ℚ)
    (hp : p ∘ Trade.clearDuration = p) (hg : g ∘ Trade.clearDuration = g)
    (l₁ l₂ : List Trade)
    (h : l₁.map Trade.clearDuration = l₂.map Trade.clearDuration) :
    (l₁.filter p).map g = (l₂.filter p).map g := by
  have h2 := congrArg (fun l => (l.filter p).map g) h
  simpa [List.filter_map, List.map_map, hp, hg] using h2

/-- Filtering by a duration-blind predicate commutes with forgetting
durations. -/
lemma filter_clearDuration_congr (p : Trade → Bool)
    (hp : p ∘ Trade.clearDuration = p) (l₁ l₂ : List Trade)
    (h : l₁.map Trade.clearDuration = l₂.map Trade.clearDuration) :
    (l₁.filter p).map Trade.clearDuration =
      (l₂.filter p).map Trade.clearDuration := by
  have h2 := congrArg (fun l => l.filter p) h
  simpa [List.filter_map, hp] using h2

/-- The four trade-based metrics are blind to `duration_days`. -/
lemma win_metrics_congr (ts₁ ts₂ : List Trade)
    (h : ts₁.map Trade.clearDuration = ts₂.map Trade.clearDuration) :
    win_rate_pct ts₁ = win_rate_pct ts₂ ∧ avg_win ts₁ = avg_win ts₂ ∧
    avg_loss ts₁ = avg_loss ts₂ ∧ profit_factor ts₁ = profit_factor ts₂ := by
  have hnil : (ts₁ = []) ↔ (ts₂ = []) := by
    rw [← List.length_eq_zero, ← List.length_eq_zero]
    have := congrArg List.length h
    simp only [List.length_map] at this
    rw [this]
  have hclosed : (closedTrades ts₁).map Trade.clearDuration =
      (closedTrades ts₂).map Trade.clearDuration :=
    filter_clearDuration_congr _ rfl ts₁ ts₂ h
  have hclen : (closedTrades ts₁).length = (closedTrades ts₂).length := by
    have := congrArg List.length hclosed
    simpa using this
  have hcnil : (closedTrades ts₁ = []) ↔ (closedTrades ts₂ = []) := by
    rw [← List.length_eq_zero, ← List.length_eq_zero, hclen]
  have hwinners : ((closedTrades ts₁).filter (fun t => 0 < t.profit_loss)).length
      = ((closedTrades ts₂).filter (fun t => 0 < t.profit_loss)).length := by
    have := congrArg List.length
      (filter_clearDuration_congr (fun t => 0 < t.profit_loss) rfl _ _ hclosed)
    simpa using this
  have hwin : winAmounts ts₁ = winAmounts ts₂ :=
    filtered_map_congr _ _ rfl rfl _ _ hclosed
  have hloss : lossAmounts ts₁ = lossAmounts ts₂ :=
    filtered_map_congr _ _ rfl rfl _ _ hclosed
  refine ⟨?_, ?_, ?_, ?_⟩
  · rw [win_rate_pct, win_rate_pct]
    by_cases h1 : ts₁ = []
    · rw [if_pos h1, if_pos (hnil.mp h1)]
    · rw [if_neg h1, if_neg (fun hh => h1 (hnil.mpr hh))]
      by_cases h2 : closedTrades ts₁ = []
      · rw [if_pos h2, if_pos (hcnil.mp h2)]
      · rw [if_neg h2, if_neg (fun hh => h2 (hcnil.mpr hh)), hwinners, hclen]
  · rw [avg_win, avg_win]
    by_cases h1 : ts₁ = []
    · rw [if_pos h1, if_pos (hnil.mp h1)]
    · rw [if_neg h1, if_neg (fun hh => h1 (hnil.mpr hh))]
      by_cases h2 : closedTrades ts₁ = []
      · rw [if_pos h2, if_pos (hcnil.mp h2)]
      · rw [if_neg h2, if_neg (fun hh => h2 (hcnil.mpr hh)), hwin]
  · rw [avg_loss, avg_loss]
    by_cases h1 : ts₁ = []
    · rw [if_pos h1, if_pos (hnil.mp h1)]
    · rw [if_neg h1, if_neg (fun hh => h1 (hnil.mpr hh))]
      by_cases h2 : closedTrades ts₁ = []
      · rw [if_pos h2, if_pos (hcnil.mp h2)]
      · rw [if_neg h2, if_neg (fun hh => h2 (hcnil.mpr hh)), hloss]
  · rw [profit_factor, profit_factor]
    by_cases h1 : ts₁ = []
    · rw [if_pos h1, if_pos (hnil.mp h1)]
    · rw [if_neg h1, if_neg (fun hh => h1 (hnil.mpr hh))]
      by_cases h2 : closedTrades ts₁ = []
      · rw [if_pos h2, if_pos (hcnil.mp h2)]
      · rw [if_neg h2, if_neg (fun hh => h2 (hcnil.mpr hh)), hwin, hloss]

/-- C7 (amended): two runs of a backtest with the same price series,
signals, capital and commission produce identical equity curves and
identical metrics, and trade lists identical up to `duration_days` — which
depends on the `datetime.now()` reading at trade construction; with equal
wall-clock readings the outputs are fully identical. -/
theorem backtest_deterministic_mod_duration (c init sh : ℚ) (n₁ n₂ : ℤ)
    (bars : List Bar) (signals : List ℤ) :
    (simulate c init sh n₁ bars signals).2 =
      (simulate c init sh n₂ bars signals).2 ∧
    (simulate c init sh n₁ bars signals).1.map Trade.clearDuration =
      (simulate c init sh n₂ bars signals).1.map Trade.clearDuration ∧
    (∀ (a : ℚ) (d : ℤ),
      mkBacktestResults a d (simulate c init sh n₁ bars signals).1
          (simulate c init sh n₁ bars signals).2 =
        mkBacktestResults a d (simulate c init sh n₂ bars signals).1
          (simulate c init sh n₂ bars signals).2) ∧
    (n₁ = n₂ →
      simulate c init sh n₁ bars signals = simulate c init sh n₂ bars signals) := by
  obtain ⟨heq, htr⟩ := simulate_strip c init sh n₁ n₂ bars signals
  obtain ⟨hw1, hw2, hw3, hw4⟩ := win_metrics_congr _ _ htr
  refine ⟨heq, htr, ?_, ?_⟩
  · intro a d
    rw [mkBacktestResults, mkBacktestResults, heq]
    rcases hard : annual_return_pct
        ((simulate c init sh n₂ bars signals).2) a d with _ | ar
    · rfl
    · dsimp only
      rw [hw1, hw2, hw3, hw4]
  · intro hn
    rw [hn]

theorem backtest_deterministic_mod_duration_witness :
    ((simulate (1/100) 1000 1 7 [⟨0, 100⟩, ⟨1, 100⟩, ⟨2, 110⟩]
        [0, 1, 0]).2 =
      (simulate (1/100) 1000 1 8 [⟨0, 100⟩, ⟨1, 100⟩, ⟨2, 110⟩]
        [0, 1, 0]).2) ∧
    (simulate (1/100) 1000 1 7 [⟨0, 100⟩, ⟨1, 100⟩, ⟨2, 110⟩] [0, 1, 0] =
      simulate (1/100) 1000 1 7 [⟨0, 100⟩, ⟨1, 100⟩, ⟨2, 110⟩] [0, 1, 0]) :=
  ⟨(backtest_deterministic_mod_duration (1/100) 1000 1 7 8
      [⟨0, 100⟩, ⟨1, 100⟩, ⟨2, 110⟩] [0, 1, 0]).1,
   (backtest_deterministic_mod_duration (1/100) 1000 1 7 7
      [⟨0, 100⟩, ⟨1, 100⟩, ⟨2, 110⟩] [0, 1, 0]).2.2.2 rfl⟩

/-- The Sortino ratio as the claim words it: the denominator is the standard
deviation of ONLY the negative bar-over-bar returns; 0 when there are fewer
than 2 equity points or that downside deviation is zero.  (Comparison
definition for refuting C8; the code's definition is `sortino_ratio`.) -/
noncomputable def sortinoClaimed (equity : List ℚ) : ℝ :=
  if equity.length < 2 then 0
  else if stdR ((returnsList equity).filter (fun x => x < 0)) = 0 then 0
  else ((meanQ (returnsList equity) : ℚ) : ℝ) /
    stdR ((returnsList equity).filter (fun x => x < 0)) * Real.sqrt 252

/-- C8 counterexample: on the equity curve [100, 120, 108] the returns are
[1/5, -1/10].  The code's denominator is the std of the clipped array
[0, -1/10] (namely 1/20), giving Sortino = sqrt 252; the claim's denominator
is the std of only the negative returns [-1/10], which is 0, so the claimed
formula yields the degenerate value 0.  The two disagree. -/
theorem sortino_denominator_mismatch :
    sortino_ratio [100, 120, 108] ≠ sortinoClaimed [100, 120, 108] := by
  have hret : returnsList [100, 120, 108] = [1/5, -1/10] := by
    norm_num [returnsList]
  have hmap : ([1/5, -1/10] : List ℚ).map (fun x => min x 0) = [0, -1/10] := by
    norm_num [min_def]
  have hvar : varQ [0, -1/10] = 1/400 := by
    norm_num [varQ, meanQ]
  have hstd : stdR [(0 : ℚ), -1/10] = 1/20 := by
    rw [stdR, hvar, show ((1/400 : ℚ) : ℝ) = (1/20)^2 by norm_num]
    exact Real.sqrt_sq (by norm_num)
  have hcode : sortino_ratio [100, 120, 108] = Real.sqrt 252 := by
    unfold sortino_ratio
    rw [hret, hmap, if_neg (by norm_num), if_pos (by norm_num),
      if_pos (by rw [hstd]; norm_num), hstd]
    have hmean : meanQ [1/5, -1/10] = 1/20 := by norm_num [meanQ]
    rw [hmean]
    norm_num
  have hfil : ([1/5, -1/10] : List ℚ).filter (fun x => x < 0) = [-1/10] := by
    norm_num [List.filter]
  have hvar1 : varQ [(-1/10 : ℚ)] = 0 := by
    norm_num [varQ, meanQ]
  have hclaim : sortinoClaimed [100, 120, 108] = 0 := by
    unfold sortinoClaimed
    rw [hret, hfil, if_neg (by norm_num), if_pos (by rw [stdR, hvar1]; simp)]
  rw [hcode, hclaim]
  have : (0 : ℝ) < Real.sqrt 252 := Real.sqrt_pos.mpr (by norm_num)
  exact ne_of_gt this

/-- C8 (amended): for every equity curve with more than 2 points whose
clipped returns have positive variance, the code's Sortino ratio equals
mean(returns) divided by the population standard deviation of the returns
CLIPPED AT ZERO (`np.minimum(returns, 0)`, all returns with positive ones
replaced by 0 — not only the negative returns), times sqrt(252); it is 0
when the curve has at most 2 points (hence fewer than 2 returns) or the
clipped standard deviation is zero. -/
theorem sortino_ratio_formula (eq : List ℚ) :
    (2 < eq.length →
      0 < varQ ((returnsList eq).map (fun x => min x 0)) →
      sortino_ratio eq = ((meanQ (returnsList eq) : ℚ) : ℝ) /
        Real.sqrt ((varQ ((returnsList eq).map (fun x => min x 0)) : ℚ) : ℝ) *
        Real.sqrt 252) ∧
    (eq.length ≤ 2 → sortino_ratio eq = 0) ∧
    (varQ ((returnsList eq).map (fun x => min x 0)) = 0 →
      sortino_ratio eq = 0) := by
  have hlen : (returnsList eq).length = eq.length - 1 := by
    rw [returnsList, List.length_zipWith, List.length_tail]
    omega
  refine ⟨?_, ?_, ?_⟩
  · intro h2 hv
    unfold sortino_ratio
    rw [if_neg (by omega), if_pos (by rw [List.length_map, hlen]; omega),
      if_pos (by exact Real.sqrt_pos.mpr (by exact_mod_cast hv))]
    rfl
  · intro h2
    unfold sortino_ratio
    rcases lt_or_ge eq.length 2 with h | h
    · rw [if_pos h]
    · have h22 : eq.length = 2 := by omega
      rw [if_neg (by omega), if_neg (by rw [List.length_map, hlen]; omega)]
  · intro hv
    have hstd : stdR ((returnsList eq).map (fun x => min x 0)) = 0 := by
      simp [stdR, hv]
    simp [sortino_ratio, hstd]

theorem sortino_ratio_formula_witness :
    (2 < ([100, 120, 108] : List ℚ).length) ∧
    sortino_ratio [100, 120, 108] =
      ((meanQ (returnsList [100, 120, 108]) : ℚ) : ℝ) /
        Real.sqrt
          ((varQ ((returnsList [100, 120, 108]).map (fun x => min x 0)) : ℚ) : ℝ) *
        Real.sqrt 252 :=
  ⟨by norm_num,
   (sortino_ratio_formula [100, 120, 108]).1 (by norm_num)
     (by norm_num [returnsList, varQ, meanQ, min_def])⟩

/-- The attributes of a `BacktestResults` object as the optimizer sees them:
the numeric attributes (the eleven metrics and `initial_capital`), whose
values `getattr(results, metric, 0)` can hand to a float comparison. -/
structure ResultsAttrs where
  total_return_pct : ℚ
  annual_return_pct : ℚ
  win_rate_pct : ℚ
  avg_win : ℚ
  avg_loss : ℚ
  profit_factor : ℚ
  sharpe_ratio : ℚ
  sortino_ratio : ℚ
  max_drawdown_pct : ℚ
  recovery_time : ℚ
  calmar_ratio : ℚ
  initial_capital : ℚ

/-- The non-numeric attributes of `BacktestResults` (strings, datetimes,
lists, methods): comparing them against the running best raises `TypeError`
inside the optimizer's `try` block, so the combination is skipped. -/
def nonNumericAttrNames : List String :=
  ["strategy_name", "symbol", "start_date", "end_date", "trades",
   "equity_curve", "dates", "to_dict", "_calculate_returns",
   "_calculate_win_metrics", "_calculate_risk_metrics", "_calculate_ratios",
   "__init__", "__post_init__", "__repr__", "__eq__", "__doc__", "__module__",
   "__class__", "__dict__", "__dataclass_fields__"]

/-- The numeric attributes of `BacktestResults`. -/
def numericAttrNames : List String :=
  ["total_return_pct", "annual_return_pct", "win_rate_pct", "avg_win",
   "avg_loss", "profit_factor", "sharpe_ratio", "sortino_ratio",
   "max_drawdown_pct", "recovery_time", "calmar_ratio", "initial_capital"]

/-- Every attribute name of a `BacktestResults` object. -/
def backtestResultsAttrNames : List String :=
  numericAttrNames ++ nonNumericAttrNames

/-- `getattr(results, name, 0)` followed by the float comparison:
`some v` when the comparison receives a number (an existing numeric
attribute, or the default `0` for a missing attribute), `none` when the
attribute exists but is not a number, so the comparison raises. -/
def getattrNum (r : ResultsAttrs) (name : String) : Option ℚ :=
  if name = "total_return_pct" then some r.total_return_pct
  else if name = "annual_return_pct" then some r.annual_return_pct
  else if name = "win_rate_pct" then some r.win_rate_pct
  else if name = "avg_win" then some r.avg_win
  else if name = "avg_loss" then some r.avg_loss
  else if name = "profit_factor" then some r.profit_factor
  else if name = "sharpe_ratio" then some r.sharpe_ratio
  else if name = "sortino_ratio" then some r.sortino_ratio
  else if name = "max_drawdown_pct" then some r.max_drawdown_pct
  else if name = "recovery_time" then some r.recovery_time
  else if name = "calmar_ratio" then some r.calmar_ratio
  else if name = "initial_capital" then some r.initial_capital
  else if name ∈ nonNumericAttrNames then none
  else some 0

/-- `itertools.product` over the candidate-value lists, in its scan order
(rightmost parameter varies fastest). -/
def productL {α : Type*} : List (List α) → List (List α)
  | [] => [[]]
  | xs :: rest => xs.flatMap (fun x => (productL rest).map (fun c => x :: c))

/-- `is_better`: strict improvement over the running best.  `none` stands
for the initial `-inf` (or `+inf` when minimizing `max_drawdown_pct`). -/
def isBetter (metric : String) (cur : ℚ) (best : Option ℚ) : Bool :=
  match best with
  | none => true
  | some b =>
      if metric = "max_drawdown_pct" then decide (cur < b) else decide (b < cur)

/-- The body of the optimizer's `try` block for one combination:
run the backtest (`none` = it raised), read the metric attribute
(`none` = the comparison raised), yield the metric value and the results. -/
def evalCombination {γ : Type*} (metric : String)
    (run : γ → Option ResultsAttrs) (c : γ) : Option (ℚ × ResultsAttrs) :=
  match run c with
  | none => none
  | some r =>
      match getattrNum r metric with
      | none => none
      | some v => some (v, r)

/-- One iteration of `Backtester.optimize_strategy`'s loop: state is
`(best_metric, (best_params, best_results))`. -/
def optStep {γ : Type*} (metric : String)
    (evalC : γ → Option (ℚ × ResultsAttrs))
    (st : Option ℚ × Option (γ × ResultsAttrs)) (c : γ) :
    Option ℚ × Option (γ × ResultsAttrs) :=
  match evalC c with
  | none => st
  | some (v, r) => if isBetter metric v st.1 then (some v, some (c, r)) else st

/-- `Backtester.optimize_strategy`: grid search over the Cartesian product,
keeping the strictly better combination, returning
`(best_params, best_results)` (`none` = `(None, None)`). -/
def optimizeStrategy {α : Type*} (metric : String) (grid : List (List α))
    (run : List α → Option ResultsAttrs) : Option (List α × ResultsAttrs) :=
  ((productL grid).foldl
    (optStep metric (evalCombination metric run)) (none, none)).2

lemma isBetter_irrefl (m : String) (v : ℚ) : isBetter m v (some v) = false := by
  unfold isBetter
  split_ifs <;> simp

lemma isBetter_asymm (m : String) {a b : ℚ}
    (h : isBetter m a (some b) = true) : isBetter m b (some a) = false := by
  unfold isBetter at *
  split_ifs at * <;> simp_all <;> linarith

lemma isBetter_trans (m : String) {a b c : ℚ}
    (h1 : isBetter m b (some a) = true) (h2 : isBetter m c (some b) = true) :
    isBetter m c (some a) = true := by
  unfold isBetter at *
  split_ifs at * <;> simp_all <;> linarith

lemma isBetter_not_of (m : String) {a b c : ℚ}
    (h : isBetter m a (some b) = false) (hc : isBetter m c (some b) = true) :
    isBetter m c (some a) = true := by
  unfold isBetter at *
  split_ifs at * <;> simp_all <;> linarith

/-- Loop invariant of the optimizer: either nothing evaluated yet and the
state is the initial one, or the state holds the first combination attaining
the best metric value seen, every earlier evaluated combination being
strictly worse and every later one not better. -/
def OptInv {γ : Type*} (metric : String)
    (evalC : γ → Option (ℚ × ResultsAttrs)) (processed : List γ)
    (st : Option ℚ × Option (γ × ResultsAttrs)) : Prop :=
  (st = (none, none) ∧ ∀ c ∈ processed, evalC c = none) ∨
  (∃ v p r pre suf, st = (some v, some (p, r)) ∧ processed = pre ++ p :: suf ∧
    evalC p = some (v, r) ∧
    (∀ c ∈ pre, ∀ w r', evalC c = some (w, r') →
      isBetter metric v (some w) = true) ∧
    (∀ c ∈ suf, ∀ w r', evalC c = some (w, r') →
      isBetter metric w (some v) = false))

lemma optStep_inv {γ : Type*} (metric : String)
    (evalC : γ → Option (ℚ × ResultsAttrs)) (processed : List γ)
    (st : Option ℚ × Option (γ × ResultsAttrs)) (c : γ)
    (h : OptInv metric evalC processed st) :
    OptInv metric evalC (processed ++ [c]) (optStep metric evalC st c) := by
  unfold optStep
  rcases hc : evalC c with _ | ⟨v', r'⟩
  · rcases h with ⟨hst, hall⟩ | ⟨v, p, r, pre, suf, hst, hsplit, hp, hpre, hsuf⟩
    · left
      refine ⟨hst, ?_⟩
      intro x hx
      rcases List.mem_append.mp hx with hx | hx
      · exact hall x hx
      · rw [List.mem_singleton.mp hx]
        exact hc
    · right
      refine ⟨v, p, r, pre, suf ++ [c], hst, by rw [hsplit]; simp, hp, hpre, ?_⟩
      intro x hx w rr hw
      rcases List.mem_append.mp hx with hx | hx
      · exact hsuf x hx w rr hw
      · rw [List.mem_singleton.mp hx] at hw
        rw [hc] at hw
        exact absurd hw (by simp)
  · dsimp only
    rcases h with ⟨hst, hall⟩ | ⟨v, p, r, pre, suf, hst, hsplit, hp, hpre, hsuf⟩
    · rw [hst]
      have hbt : isBetter metric v'
          ((none, none) : Option ℚ × Option (γ × ResultsAttrs)).1 = true := rfl
      rw [if_pos hbt]
      right
      refine ⟨v', c, r', processed, [], rfl, by simp, hc, ?_, by simp⟩
      intro x hx w rr hw
      rw [hall x hx] at hw
      exact absurd hw (by simp)
    · rw [hst]
      dsimp only
      by_cases hb : isBetter metric v' (some v) = true
      · rw [if_pos hb]
        right
        refine ⟨v', c, r', processed, [], rfl, by simp, hc, ?_, by simp⟩
        intro x hx w rr hw
        rw [hsplit] at hx
        rcases List.mem_append.mp hx with hx | hx
        · exact isBetter_trans metric (hpre x hx w rr hw) hb
        · rcases List.mem_cons.mp hx with hx | hx
          · rw [hx, hp] at hw
            obtain ⟨hw1, -⟩ := Prod.mk.injEq .. ▸ Option.some.inj hw
            rw [← hw1]
            exact hb
          · exact isBetter_not_of metric (hsuf x hx w rr hw) hb
      · rw [if_neg hb]
        right
        refine ⟨v, p, r, pre, suf ++ [c], rfl, by rw [hsplit]; simp, hp, hpre, ?_⟩
        intro x hx w rr hw
        rcases List.mem_append.mp hx with hx | hx
        · exact hsuf x hx w rr hw
        · rw [List.mem_singleton.mp hx] at hw
          rw [hc] at hw
          obtain ⟨hw1, -⟩ := Prod.mk.injEq .. ▸ Option.some.inj hw
          rw [← hw1]
          exact eq_false_of_ne_true hb

lemma optFold_inv {γ : Type*} (metric : String)
    (evalC : γ → Option (ℚ × ResultsAttrs)) :
    ∀ (l processed : List γ) (st : Option ℚ × Option (γ × ResultsAttrs)),
    OptInv metric evalC processed st →
    OptInv metric evalC (processed ++ l) (l.foldl (optStep metric evalC) st) := by
  intro l
  induction l with
  | nil => intro processed st h; simpa using h
  | cons c cs ih =>
    intro processed st h
    rw [List.foldl_cons]
    have h2 := ih (processed ++ [c]) _ (optStep_inv metric evalC processed st c h)
    simpa using h2

/-- C6: whenever at least one grid combination is successfully evaluated,
`Backtester.optimize_strategy` returns a best pair whose metric value is not
worse (not less for maximized metrics, not greater for `max_drawdown_pct`)
than the value of every successfully evaluated combination; the returned
combination is the first in the Cartesian-product scan order attaining that
optimum (everything earlier is strictly worse), and combinations that raise
are simply skipped. -/
theorem optimize_strategy_best {α : Type*} (metric : String)
    (grid : List (List α)) (run : List α → Option ResultsAttrs)
    (h : ∃ c ∈ productL grid, evalCombination metric run c ≠ none) :
    ∃ p r v pre suf,
      optimizeStrategy metric grid run = some (p, r) ∧
      evalCombination metric run p = some (v, r) ∧
      productL grid = pre ++ p :: suf ∧
      (∀ c ∈ productL grid, ∀ w r',
        evalCombination metric run c = some (w, r') →
        isBetter metric w (some v) = false) ∧
      (∀ c ∈ pre, ∀ w r',
        evalCombination metric run c = some (w, r') →
        isBetter metric v (some w) = true) := by
  have hinv := optFold_inv metric (evalCombination metric run)
    (productL grid) [] (none, none) (Or.inl ⟨rfl, by simp⟩)
  rw [List.nil_append] at hinv
  rcases hinv with ⟨hst, hall⟩ | ⟨v, p, r, pre, suf, hst, hsplit, hp, hpre, hsuf⟩
  · obtain ⟨c, hcmem, hcne⟩ := h
    exact absurd (hall c hcmem) hcne
  · refine ⟨p, r, v, pre, suf, ?_, hp, hsplit, ?_, hpre⟩
    · unfold optimizeStrategy
      rw [hst]
    · intro c hc w r' hw
      rw [hsplit] at hc
      rcases List.mem_append.mp hc with hcp | hcp
      · exact isBetter_asymm metric (hpre c hcp w r' hw)
      · rcases List.mem_cons.mp hcp with hcp | hcp
        · rw [hcp, hp] at hw
          obtain ⟨hw1, -⟩ := Prod.mk.injEq .. ▸ Option.some.inj hw
          rw [← hw1]
          exact isBetter_irrefl metric v
        · exact hsuf c hcp w r' hw

/-- A concrete one-success runner used to instantiate the C6 theorem. -/
def sampleRunSharpe : List ℕ → Option ResultsAttrs :=
  fun c => if c = [1] then some ⟨0, 0, 0, 0, 0, 0, 0, 0, 0, 0, 0, 0⟩ else none

theorem optimize_strategy_best_witness :
    ∃ p r v pre suf,
      optimizeStrategy "sharpe_ratio" [[1, 2]] sampleRunSharpe = some (p, r) ∧
      evalCombination "sharpe_ratio" sampleRunSharpe p = some (v, r) ∧
      productL [[1, 2]] = pre ++ p :: suf ∧
      (∀ c ∈ productL [[1, 2]], ∀ w r',
        evalCombination "sharpe_ratio" sampleRunSharpe c = some (w, r') →
        isBetter "sharpe_ratio" w (some v) = false) ∧
      (∀ c ∈ pre, ∀ w r',
        evalCombination "sharpe_ratio" sampleRunSharpe c = some (w, r') →
        isBetter "sharpe_ratio" v (some w) = true) :=
  optimize_strategy_best "sharpe_ratio" [[1, 2]] sampleRunSharpe
    ⟨[1], by simp [productL],
      by simp [evalCombination, sampleRunSharpe, getattrNum]⟩

/-- With an unrecognized metric name, `getattr` yields the default `0`. -/
lemma getattrNum_default (r : ResultsAttrs) (name : String)
    (h : name ∉ backtestResultsAttrNames) : getattrNum r name = some 0 := by
  have h' : ¬(name ∈ numericAttrNames ∨ name ∈ nonNumericAttrNames) := by
    simpa [backtestResultsAttrNames, List.mem_append] using h
  push_neg at h'
  obtain ⟨h1, h2⟩ := h'
  simp only [numericAttrNames, List.mem_cons, List.mem_singleton,
    List.not_mem_nil, or_false] at h1
  push_neg at h1
  obtain ⟨ha, hb, hc, hd, he, hf, hg, hh, hi, hj, hk, hl⟩ := h1
  simp [getattrNum, ha, hb, hc, hd, he, hf, hg, hh, hi, hj, hk, hl, h2]

/-- C10: with a metric name that is not an attribute of `BacktestResults`,
`getattr(results, metric, 0)` yields `0` for every combination, so the
optimizer returns the first combination (in scan order) whose simulation
succeeds, and never signals an error for the unrecognized name. -/
theorem optimize_unknown_metric_first_success {α : Type*} (metric : String)
    (grid : List (List α)) (run : List α → Option ResultsAttrs)
    (hm : metric ∉ backtestResultsAttrNames)
    (h : ∃ c ∈ productL grid, run c ≠ none) :
    ∃ p r pre suf,
      optimizeStrategy metric grid run = some (p, r) ∧
      productL grid = pre ++ p :: suf ∧
      run p = some r ∧ getattrNum r metric = some 0 ∧
      (∀ c ∈ pre, run c = none) := by
  have hev : ∀ c, evalCombination metric run c =
      (run c).map (fun r => ((0 : ℚ), r)) := by
    intro c
    unfold evalCombination
    rcases run c with _ | r
    · rfl
    · simp [getattrNum_default r metric hm]
  have hinv := optFold_inv metric (evalCombination metric run)
    (productL grid) [] (none, none) (Or.inl ⟨rfl, by simp⟩)
  rw [List.nil_append] at hinv
  rcases hinv with ⟨hst, hall⟩ | ⟨v, p, r, pre, suf, hst, hsplit, hp, hpre, hsuf⟩
  · obtain ⟨c, hcmem, hcne⟩ := h
    have := hall c hcmem
    rw [hev c] at this
    rcases hrc : run c with _ | rr
    · exact absurd hrc hcne
    · rw [hrc] at this
      exact absurd this (by simp)
  · have hp' := hp
    rw [hev p] at hp'
    rcases hrp : run p with _ | rr
    · rw [hrp] at hp'
      exact absurd hp' (by simp)
    · rw [hrp] at hp'
      simp only [Option.map_some'] at hp'
      obtain ⟨hv0, hr⟩ := Prod.mk.injEq .. ▸ Option.some.inj hp'
      refine ⟨p, r, pre, suf, ?_, hsplit, ?_, ?_, ?_⟩
      · unfold optimizeStrategy
        rw [hst]
      · rw [hrp, hr]
      · rw [getattrNum_default r metric hm]
      · intro c hc
        rcases hrc : run c with _ | rc
        · rfl
        · have hev2 := hev c
          rw [hrc] at hev2
          simp only [Option.map_some'] at hev2
          have := hpre c hc 0 rc hev2
          rw [← hv0] at this
          rw [isBetter_irrefl] at this
          exact absurd this (by simp)

/-- A concrete runner whose first success is the second combination, used
to instantiate the C10 theorem. -/
def sampleRunBogus : List ℕ → Option ResultsAttrs :=
  fun c => if c = [2] then some ⟨0, 0, 0, 0, 0, 0, 0, 0, 0, 0, 0, 0⟩ else none

theorem optimize_unknown_metric_first_success_witness :
    ∃ p r pre suf,
      optimizeStrategy "bogus_metric" [[1, 2]] sampleRunBogus = some (p, r) ∧
      productL [[1, 2]] = pre ++ p :: suf ∧
      sampleRunBogus p = some r ∧
      getattrNum r "bogus_metric" = some 0 ∧
      (∀ c ∈ pre, sampleRunBogus c = none) :=
  optimize_unknown_metric_first_success "bogus_metric" [[1, 2]] sampleRunBogus
    (by simp [backtestResultsAttrNames, numericAttrNames, nonNumericAttrNames])
    ⟨[2], by simp [productL], by simp [sampleRunBogus]⟩

/-- A pandas/numpy float as the RSI pipeline observes it: an exact rational,
`inf`/`-inf`, or `NaN`.  The pipeline's divisions are exact, so only the
special values need IEEE semantics. -/
inductive PFloat where
  | nan
  | inf
  | ninf
  | fin (q : ℚ)
deriving DecidableEq, Repr

/-- IEEE negation. -/
def PFloat.neg : PFloat → PFloat
  | .nan => .nan
  | .inf => .ninf
  | .ninf => .inf
  | .fin q => .fin (-q)

/-- IEEE addition (as in elementwise pandas arithmetic). -/
def PFloat.add : PFloat → PFloat → PFloat
  | .nan, _ => .nan
  | _, .nan => .nan
  | .inf, .ninf => .nan
  | .ninf, .inf => .nan
  | .inf, _ => .inf
  | _, .inf => .inf
  | .ninf, _ => .ninf
  | _, .ninf => .ninf
  | .fin a, .fin b => .fin (a + b)

/-- IEEE subtraction. -/
def PFloat.sub (a b : PFloat) : PFloat := PFloat.add a (PFloat.neg b)

/-- IEEE division as numpy/pandas performs it elementwise: `x/0` is `±inf`
for `x ≠ 0` and `NaN` for `0/0` (pandas emits these rather than raising). -/
def PFloat.div : PFloat → PFloat → PFloat
  | .nan, _ => .nan
  | _, .nan => .nan
  | .inf, .inf => .nan
  | .inf, .ninf => .nan
  | .ninf, .inf => .nan
  | .ninf, .ninf => .nan
  | .inf, .fin b => if b < 0 then .ninf else .inf
  | .ninf, .fin b => if b < 0 then .inf else .ninf
  | .fin _, .inf => .fin 0
  | .fin _, .ninf => .fin 0
  | .fin a, .fin b =>
      if b = 0 then (if a = 0 then .nan else if 0 < a then .inf else .ninf)
      else .fin (a / b)

/-- IEEE `<`: every comparison against `NaN` is false. -/
def PFloat.lt : PFloat → PFloat → Bool
  | .nan, _ => false
  | _, .nan => false
  | .inf, _ => false
  | _, .inf => true
  | .ninf, .ninf => false
  | .ninf, _ => true
  | _, .ninf => false
  | .fin a, .fin b => decide (a < b)

/-- IEEE `>`. -/
def PFloat.gt (a b : PFloat) : Bool := PFloat.lt b a

/-- `close.diff()` at index `i`: `NaN` at index 0. -/
def deltaAt (closes : List ℚ) (i : ℕ) : PFloat :=
  if i = 0 then .nan else .fin (closes.getD i 0 - closes.getD (i - 1) 0)

/-- `delta.where(delta > 0, 0)` at index `i` (the `NaN` head compares false
and is replaced by 0, so the gain series is finite everywhere). -/
def gainAt (closes : List ℚ) (i : ℕ) : ℚ :=
  match deltaAt closes i with
  | .fin q => if 0 < q then q else 0
  | _ => 0

/-- `-delta.where(delta < 0, 0)` at index `i`. -/
def lossAt (closes : List ℚ) (i : ℕ) : ℚ :=
  match deltaAt closes i with
  | .fin q => if q < 0 then -q else 0
  | _ => 0

/-- `series.rolling(window=p).mean()` at index `i`: `NaN` until the window
is full, then the exact mean of the last `p` values. -/
def rollingMeanAt (p : ℕ) (xs : ℕ → ℚ) (i : ℕ) : PFloat :=
  if i + 1 < p then .nan
  else .fin ((((List.range p).map (fun j => xs (i - j))).sum) / (p : ℚ))

/-- `rs = gain / loss` at index `i` (elementwise pandas division). -/
def rsAt (p : ℕ) (closes : List ℚ) (i : ℕ) : PFloat :=
  PFloat.div (rollingMeanAt p (gainAt closes) i)
    (rollingMeanAt p (lossAt closes) i)

/-- `rsi = 100 - (100 / (1 + rs))` at index `i`. -/
def rsiAt (p : ℕ) (closes : List ℚ) (i : ℕ) : PFloat :=
  PFloat.sub (.fin 100)
    (PFloat.div (.fin 100) (PFloat.add (.fin 1) (rsAt p closes i)))

/-- `RelativeStrengthIndex.generate_signals` at one bar:
`signals[rsi < oversold] = 1` then `signals[rsi > overbought] = -1`
(the later assignment wins where both hold), else the initial 0. -/
def signalAt (p : ℕ) (oversold overbought : ℚ) (closes : List ℚ)
    (i : ℕ) : ℤ :=
  if PFloat.gt (rsiAt p closes i) (.fin overbought) then -1
  else if PFloat.lt (rsiAt p closes i) (.fin oversold) then 1
  else 0

/-- The whole signal series of the RSI strategy. -/
def rsiSignals (p : ℕ) (oversold overbought : ℚ) (closes : List ℚ) :
    List ℤ :=
  (List.range closes.length).map (signalAt p oversold overbought closes)

/-- C9 counterexample: a completely flat window (closes [100, 100, 100],
period 2, oversold 30, overbought 70).  At bar 2 the window's rolling loss
average is 0 and its rolling gain average is 0, so `rs = 0/0 = NaN` and
`rsi = NaN`; both `rsi < oversold` and `rsi > overbought` are false, so the
strategy emits Hold (0), not the claimed Sell (-1). -/
theorem rsi_flat_window_emits_hold :
    (((List.range 2).map (fun j => lossAt [100, 100, 100] (2 - j))).sum = 0) ∧
    (((List.range 2).map (fun j => gainAt [100, 100, 100] (2 - j))).sum = 0) ∧
    rsiSignals 2 30 70 [100, 100, 100] = [0, 0, 0] ∧
    ((0 : ℤ) ≠ -1) := by
  refine ⟨?_, ?_, ?_, by decide⟩ <;>
    norm_num [rsiSignals, signalAt, rsiAt, rsAt, rollingMeanAt, gainAt,
      lossAt, deltaAt, PFloat.div, PFloat.add, PFloat.sub, PFloat.neg,
      PFloat.lt, PFloat.gt, List.range_succ]

/-- C9 (amended): on any bar whose full lookback window has rolling average
loss zero, the RSI strategy emits Sell if the window also has some gain
(RSI is the maximal 100, above any overbought threshold below 100), but on
a completely flat window (no gains either) the RSI is `NaN = 0/0` and the
strategy emits Hold, not Sell; in neither case does it raise. -/
theorem rsi_zero_loss_window (p : ℕ) (oversold overbought : ℚ)
    (closes : List ℚ) (i : ℕ) (hp : 1 ≤ p) (hw : p ≤ i + 1)
    (hloss : ((List.range p).map (fun j => lossAt closes (i - j))).sum = 0) :
    (0 < ((List.range p).map (fun j => gainAt closes (i - j))).sum →
      overbought < 100 →
      signalAt p oversold overbought closes i = -1) ∧
    (((List.range p).map (fun j => gainAt closes (i - j))).sum = 0 →
      signalAt p oversold overbought closes i = 0) := by
  have hnw : ¬(i + 1 < p) := by omega
  have hlossavg : rollingMeanAt p (lossAt closes) i = .fin 0 := by
    rw [rollingMeanAt, if_neg hnw, hloss, zero_div]
  have hgainavg : rollingMeanAt p (gainAt closes) i =
      .fin ((((List.range p).map (fun j => gainAt closes (i - j))).sum) /
        (p : ℚ)) := by
    rw [rollingMeanAt, if_neg hnw]
  constructor
  · intro hg hob
    have hppos : (0 : ℚ) < (p : ℚ) := by
      exact_mod_cast Nat.lt_of_lt_of_le Nat.zero_lt_one hp
    have hgpos : 0 <
        (((List.range p).map (fun j => gainAt closes (i - j))).sum) / (p : ℚ) :=
      div_pos hg hppos
    have hrs : rsAt p closes i = .inf := by
      rw [rsAt, hgainavg, hlossavg, PFloat.div]
      rw [if_pos rfl, if_neg (ne_of_gt hgpos), if_pos hgpos]
    have hrsi : rsiAt p closes i = .fin (100 + -(0 : ℚ)) := by
      rw [rsiAt, hrs]
      rfl
    rw [signalAt, hrsi]
    rw [if_pos ?_]
    show PFloat.lt (.fin overbought) (.fin (100 + -(0 : ℚ))) = true
    rw [PFloat.lt]
    simpa using by linarith
  · intro hg
    have hrs : rsAt p closes i = .nan := by
      rw [rsAt, hgainavg, hlossavg, hg, PFloat.div]
      rw [if_pos rfl, if_pos (zero_div (p : ℚ))]
    have hrsi : rsiAt p closes i = .nan := by
      rw [rsiAt, hrs]
      rfl
    rw [signalAt, hrsi]
    rfl

theorem rsi_zero_loss_window_witness :
    signalAt 2 30 70 [100, 101, 101] 2 = -1 ∧
    signalAt 2 30 70 [100, 100, 100] 2 = 0 :=
  ⟨(rsi_zero_loss_window 2 30 70 [100, 101, 101] 2 (by norm_num) (by norm_num)
      (by norm_num [lossAt, deltaAt, List.range_succ])).1
    (by norm_num [gainAt, deltaAt, List.range_succ]) (by norm_num),
   (rsi_zero_loss_window 2 30 70 [100, 100, 100] 2 (by norm_num) (by norm_num)
      (by norm_num [lossAt, deltaAt, List.range_succ])).2
    (by norm_num [gainAt, deltaAt, List.range_succ])⟩

end StockAdvisor
